import Mathlib

/-!
Shallow embedding of the ledger shell transaction-execution pipeline
(`apps/src/bin/anoma-node/shell/mod.rs`): the `run_tx` driver, verifier-set
discovery, the parallel VP validation engine and its result aggregation, the
commit-vs-drop decision on the write-log, and the shell's consensus-message
dispatch loop.

Support modules (`shell/gas.rs`, `shell/storage.rs`, `vm/host_env/write_log.rs`,
the `TxRunner`/`VpRunner` sandboxes and the protobuf `Tx` decoder) are not part
of the sources at hand; they are modelled from the specification (sections 3,
4.2, 4.3) and, for the black-box runners, as abstract function parameters
bundled in an `Env` record.  The parallel (rayon) folds of the VP engine are
modelled by their sequential left-fold schedule, which is one of the admissible
schedules of the fold/merge combination the source uses.
-/

set_option autoImplicit false

/-- Modelled from the spec (section 3, `shell/storage.rs` is absent): an
address is a tagged identity with variants `Established`, `Implicit`,
`Internal`. -/
inductive Address where
  | established (id : String)
  | implicit (id : String)
  | internal (tag : String)
  deriving DecidableEq, Repr

/-- Modelled from the spec (section 3): one segment of a structured key,
either an address segment or a plain string segment. -/
inductive KeySegment where
  | addr (a : Address)
  | seg (s : String)
  deriving DecidableEq, Repr

/-- Modelled from the spec (section 3, `shell/storage.rs` is absent): a key is
a sequence of segments. -/
structure Key where
  segments : List KeySegment
  deriving DecidableEq, Repr

def Address.render : Address → String
  | .established id => "@" ++ id
  | .implicit id => "~" ++ id
  | .internal tag => "#" ++ tag

def KeySegment.render : KeySegment → String
  | .addr a => a.render
  | .seg s => s

/-- String rendering of a key: segments joined by a slash, mirroring the
`Display` used by `key.to_string()` in `get_verifiers`. -/
def Key.toString (k : Key) : String :=
  String.intercalate "/" (k.segments.map KeySegment.render)

/-- Modelled from the spec (section 3): `find_addresses(key)` is the set of
all addresses that appear anywhere in the key (a set, hence deduplicated). -/
def Key.find_addresses (k : Key) : List Address :=
  (k.segments.filterMap (fun s =>
    match s with
    | .addr a => some a
    | .seg _ => none)).dedup

/-- Modelled from the spec (section 3): a write-log entry for a key. -/
inductive StorageModification where
  | write (value : List Nat)
  | delete
  | initAccount (vp : List Nat)
  | temp (value : List Nat)
  deriving DecidableEq, Repr

/-- Modelled from the spec (section 4.2, `vm/host_env/write_log.rs` is
absent): the staged-delta layer with a tx-scope and a block-scope list of
entries over the storage substrate. -/
structure WriteLog where
  tx_scope : List (Key × StorageModification)
  block_scope : List (Key × StorageModification)
  deriving DecidableEq, Repr

def WriteLog.new : WriteLog := { tx_scope := [], block_scope := [] }

/-- Modelled from the spec (section 4.2): the union of tx-scope and
block-scope mutated keys. -/
def WriteLog.get_changed_keys (wl : WriteLog) : List Key :=
  ((wl.tx_scope ++ wl.block_scope).map Prod.fst).dedup

/-- Modelled from the spec (section 4.2): `commit_tx` merges the tx-scope
entries into the block scope (temporary entries are discarded at the end of
the tx) and clears the tx scope. -/
def WriteLog.commit_tx (wl : WriteLog) : WriteLog :=
  { tx_scope := [],
    block_scope := wl.block_scope ++ wl.tx_scope.filter (fun e =>
      match e.2 with
      | .temp _ => false
      | _ => true) }

/-- Modelled from the spec (section 4.2): `drop_tx` discards the tx scope. -/
def WriteLog.drop_tx (wl : WriteLog) : WriteLog :=
  { wl with tx_scope := [] }

/-- Modelled from the spec: opaque error of the storage substrate. -/
structure StorageErr where
  msg : String
  deriving DecidableEq, Repr

/-- Modelled from the spec (sections 1, 6; the storage engine is an external
collaborator): a key/value substrate with a `validity_predicate` lookup, a
chain-id record, a last-state lookup and a Merkle root.  Fallibility of the
substrate operations is carried by function-valued fields. -/
structure Storage where
  vps : Address → Except StorageErr (List Nat)
  chain_id : Option String
  set_chain_id_err : String → Option StorageErr
  last_state_result : Except StorageErr (Option (List Nat × Nat))
  root : List Nat
  block_hash : List Nat
  block_height : Nat
  committed : List (Key × StorageModification)

def Storage.validity_predicate (s : Storage) (a : Address) :
    Except StorageErr (List Nat) :=
  s.vps a

def Storage.set_chain_id (s : Storage) (c : String) : Except StorageErr Storage :=
  match s.set_chain_id_err c with
  | some e => .error e
  | none => .ok { s with chain_id := some c }

def Storage.begin_block (s : Storage) (hash : List Nat) (height : Nat) : Storage :=
  { s with block_hash := hash, block_height := height }

def Storage.load_last_state (s : Storage) :
    Except StorageErr (Option (List Nat × Nat)) :=
  s.last_state_result

def Storage.merkle_root (s : Storage) : List Nat :=
  s.root

/-- Modelled from the spec (section 6): persisting the block data is a
best-effort substrate operation whose internals are out of scope. -/
def Storage.commitDB (s : Storage) : Storage := s

/-- Modelled from the spec (section 4.2): `commit_block` applies the
block-scope entries to storage in a single pass and clears the buffer. -/
def WriteLog.commit_block (wl : WriteLog) (s : Storage) : WriteLog × Storage :=
  ({ wl with block_scope := [] },
   { s with committed := s.committed ++ wl.block_scope })

/-- Modelled from the spec (section 4.3, `shell/gas.rs` is absent): gas error
kinds. -/
inductive GasError where
  | GasOverflow
  | TransactionGasExceeded
  | BlockGasExceeded
  deriving DecidableEq, Repr

/-- The u64 ceiling used by the checked gas arithmetic. -/
def U64_MAX : Nat := 2 ^ 64 - 1

/-- Modelled from the spec (section 4.3): the gas constants are
implementation-defined; they are fixed here to concrete values so that the
model is executable. -/
def BASE_TX_FEE_PER_BYTE : Nat := 2

def COMPILE_FEE_PER_BYTE : Nat := 1

def PARALLEL_GAS_DIVISOR : Nat := 10

def TRANSACTION_GAS_LIMIT : Nat := 1000000000

def BLOCK_GAS_LIMIT : Nat := 10000000000

/-- Modelled from the spec (section 4.3, `shell/gas.rs` is absent): the block
gas meter with a per-transaction and a per-block accumulator. -/
structure BlockGasMeter where
  transaction_gas : Nat
  block_gas : Nat
  deriving DecidableEq, Repr

def BlockGasMeter.default : BlockGasMeter :=
  { transaction_gas := 0, block_gas := 0 }

/-- Modelled from the spec (section 4.3): checked addition into the
transaction accumulator, failing on u64 overflow or on exceeding the per-tx
limit. -/
def BlockGasMeter.add (m : BlockGasMeter) (gas : Nat) :
    Except GasError BlockGasMeter :=
  let t := m.transaction_gas + gas
  if U64_MAX < t then .error .GasOverflow
  else if TRANSACTION_GAS_LIMIT < t then .error .TransactionGasExceeded
  else .ok { m with transaction_gas := t }

/-- Modelled from the spec (section 4.3): charges `n * BASE_TX_FEE_PER_BYTE`. -/
def BlockGasMeter.add_base_transaction_fee (m : BlockGasMeter) (bytes_len : Nat) :
    Except GasError BlockGasMeter :=
  m.add (bytes_len * BASE_TX_FEE_PER_BYTE)

/-- Modelled from the spec (section 4.3): charges `n * COMPILE_FEE_PER_BYTE`. -/
def BlockGasMeter.add_compiling_fee (m : BlockGasMeter) (bytes_len : Nat) :
    Except GasError BlockGasMeter :=
  m.add (bytes_len * COMPILE_FEE_PER_BYTE)

/-- Modelled from the spec (section 4.3): the parallel-fee policy charges the
ceiling of `sum(costs) / PARALLEL_GAS_DIVISOR`. -/
def BlockGasMeter.add_parallel_fee (m : BlockGasMeter) (costs : List Nat) :
    Except GasError BlockGasMeter :=
  m.add ((costs.sum + PARALLEL_GAS_DIVISOR - 1) / PARALLEL_GAS_DIVISOR)

def BlockGasMeter.get_current_transaction_gas (m : BlockGasMeter) : Nat :=
  m.transaction_gas

/-- Modelled from the spec (section 4.3): `finalize_transaction` returns the
total gas used by the current transaction and adds it to the block total,
failing if the block total would exceed the block gas limit. -/
def BlockGasMeter.finalize_transaction (m : BlockGasMeter) :
    Except GasError (Nat × BlockGasMeter) :=
  let b := m.block_gas + m.transaction_gas
  if U64_MAX < b then .error .GasOverflow
  else if BLOCK_GAS_LIMIT < b then .error .BlockGasExceeded
  else .ok (m.transaction_gas, { transaction_gas := 0, block_gas := b })

/-- Modelled from the spec (section 4.3): reset the block meter (done at
`BeginBlock`). -/
def BlockGasMeter.reset (_m : BlockGasMeter) : BlockGasMeter :=
  { transaction_gas := 0, block_gas := 0 }

/-- Modelled from the spec (sections 3, 4.3): the per-predicate gas meter,
seeded with the shared `initial_gas` snapshot. -/
structure VpGasMeter where
  initial_gas : Nat
  vp_gas : Nat
  deriving DecidableEq, Repr

def VpGasMeter.new (initial_gas : Nat) : VpGasMeter :=
  { initial_gas := initial_gas, vp_gas := 0 }

/-- Modelled from the spec: opaque error of the protobuf transaction decoder
(`prost::DecodeError`). -/
structure DecodeErr where
  msg : String
  deriving DecidableEq, Repr

/-- Modelled from the spec: opaque error of the sandboxed code runners
(`vm::Error`). -/
structure RunnerErr where
  msg : String
  deriving DecidableEq, Repr

/-- The shell error type, translated from `enum Error` in `shell/mod.rs`
(the `RemoveDB` variant of the out-of-scope `reset` path is omitted). -/
inductive Error where
  | StorageError (e : StorageErr)
  | AbciChannelRecvError (msg : String)
  | AbciChannelSendError (msg : String)
  | TxDecodingError (e : DecodeErr)
  | TxRunnerError (e : RunnerErr)
  | GasError (e : GasError)
  deriving DecidableEq, Repr

/-- Modelled from the spec (section 3): the transaction envelope with opaque
`code` bytes and optional `data` bytes. -/
structure Tx where
  code : List Nat
  data : Option (List Nat)
  deriving DecidableEq, Repr

/-- Translated from `enum MempoolTxType` in `shell/mod.rs`. -/
inductive MempoolTxType where
  | NewTransaction
  | RecheckTransaction
  deriving DecidableEq, Repr

/-- Modelled from the spec (sections 1, 4.7): the external collaborators of
the core, bundled as abstract functions.  `decode` is the protobuf `Tx`
decoder; `tx_run` is `TxRunner::run`, which may mutate the write-log, the
verifier set and the gas meter and whose partial mutations persist even when
it fails; `vp_run` is `VpRunner::run`, which sees read-only state and mutates
only its own `VpGasMeter`. -/
structure Env where
  decode : List Nat → Except DecodeErr Tx
  tx_run : Storage → WriteLog → BlockGasMeter → List Nat → List Nat →
    (Except RunnerErr (List Address)) × WriteLog × BlockGasMeter
  vp_run : List Nat → List Nat → Address → Storage → WriteLog → VpGasMeter →
    List String → List Address → (Except Unit Bool) × VpGasMeter

/-- Translated from `struct VpsResult` in `shell/mod.rs`: the aggregate over
predicate outcomes.  The `HashSet` fields become `Finset`s. -/
structure VpsResult where
  accepted_vps : Finset Address
  rejected_vps : Finset Address
  changed_keys : List String
  gas_used : List Nat
  have_error : Bool
  deriving DecidableEq

/-- Translated from `VpsResult::new`. -/
def VpsResult.new (accepted_vps rejected_vps : Finset Address)
    (changed_keys : List String) (gas_used : List Nat) (have_error : Bool) :
    VpsResult :=
  { accepted_vps := accepted_vps, rejected_vps := rejected_vps,
    changed_keys := changed_keys, gas_used := gas_used,
    have_error := have_error }

/-- Translated from `impl Default for VpsResult`. -/
def VpsResult.default : VpsResult :=
  { accepted_vps := ∅, rejected_vps := ∅, changed_keys := [], gas_used := [],
    have_error := false }

/-- Render a finite set of addresses for display, sorted to have a canonical
string. -/
def renderAddressSet (s : Finset Address) : String :=
  toString ((s.val.map Address.render).sort (· ≤ ·))

/-- Translated from `impl Display for VpsResult`. -/
def VpsResult.toString (r : VpsResult) : String :=
  "Vps -> accepted: " ++ renderAddressSet r.accepted_vps ++
  ". rejected: " ++ renderAddressSet r.rejected_vps ++
  ", keys: " ++ ToString.toString r.changed_keys ++
  ", gas_used: " ++ ToString.toString r.gas_used ++
  ", error: " ++ ToString.toString r.have_error

/-- Translated from `struct TxResult` in `shell/mod.rs`; a `gas_used` of 0
indicates that the transaction overflowed with gas. -/
structure TxResult where
  gas_used : Nat
  vps : VpsResult
  valid : Bool
  deriving DecidableEq

/-- Translated from `TxResult::is_tx_correct`: the validity decision is that
no VP rejected. -/
def TxResult.is_tx_correct (r : TxResult) : Bool :=
  decide (r.vps.rejected_vps = ∅)

/-- Translated from `TxResult::new`: the gas result is flattened with
`unwrap_or(0)` and `valid` is then set from `is_tx_correct`. -/
def TxResult.new (gas : Except Error Nat) (vps : VpsResult) : TxResult :=
  let tx_result : TxResult :=
    { gas_used := match gas with
        | .ok g => g
        | .error _ => 0,
      vps := vps,
      valid := false }
  { tx_result with valid := tx_result.is_tx_correct }

/-- Translated from `impl Display for TxResult`. -/
def TxResult.toString (r : TxResult) : String :=
  "Transaction is valid: " ++ ToString.toString r.valid ++
  ". Gas used: " ++ ToString.toString r.gas_used ++
  ", vps: " ++ r.vps.toString

/-- Association-list lookup, modelling `HashMap::get`. -/
def alGet (m : List (Address × List String)) (a : Address) :
    Option (List String) :=
  match m with
  | [] => none
  | (b, v) :: rest => if b = a then some v else alGet rest a

/-- Association-list insert-or-replace, modelling `HashMap::insert`. -/
def alInsert (m : List (Address × List String)) (a : Address)
    (v : List String) : List (Address × List String) :=
  match m with
  | [] => [(a, v)]
  | (b, w) :: rest =>
    if b = a then (a, v) :: rest else (b, w) :: alInsert rest a v

/-- Push a key string onto an address's entry, inserting the entry when it is
absent: models the `get_mut`/`push`-else-`insert` branch of `get_verifiers`. -/
def alPush (m : List (Address × List String)) (a : Address) (k : String) :
    List (Address × List String) :=
  match m with
  | [] => [(a, [k])]
  | (b, v) :: rest =>
    if b = a then (b, v ++ [k]) :: rest else (b, v) :: alPush rest a k

/-- Translated from `get_verifiers` in `shell/mod.rs`: seed the map with the
tx-declared verifier addresses (empty key lists), then for every changed key
and every address found in it, push the key's string rendering onto that
address's entry. -/
def get_verifiers (write_log : WriteLog) (verifiers : List Address) :
    List (Address × List String) :=
  let base := verifiers.foldl (fun acc addr => alInsert acc addr []) []
  (write_log.get_changed_keys).foldl
    (fun acc key =>
      (key.find_addresses).foldl
        (fun acc2 addr => alPush acc2 addr key.toString) acc)
    base

/-- Stable insertion into a descending-sorted list, auxiliary to `sortDesc`. -/
def insertDesc (x : Nat) : List Nat → List Nat
  | [] => [x]
  | y :: ys => if y < x then x :: y :: ys else y :: insertDesc x ys

/-- Descending sort, modelling `gas_used.sort_by(|a, b| b.cmp(a))` in
`check_vps`. -/
def sortDesc : List Nat → List Nat
  | [] => []
  | x :: xs => insertDesc x (sortDesc xs)

/-- Translated from `merge_vp_results` in `shell/mod.rs`: set unions on the
accepted and rejected sets, concatenations of the changed-key and gas lists,
disjunction of the error flags. -/
def merge_vp_results (a : VpsResult) (b : VpsResult) : VpsResult :=
  let accepted_vps := a.accepted_vps ∪ b.accepted_vps
  let rejected_vps := a.rejected_vps ∪ b.rejected_vps
  let changed_keys := a.changed_keys ++ b.changed_keys
  let gas_used := a.gas_used ++ b.gas_used
  let have_error := a.have_error || b.have_error
  VpsResult.new accepted_vps rejected_vps changed_keys gas_used have_error

/-- Translated from `run_vp` in `shell/mod.rs`: run one predicate through the
sandboxed runner with a fresh per-VP gas meter, record its gas and keys, and
map the outcome (accept / reject / host error) into the aggregate. -/
def run_vp (env : Env) (result : VpsResult) (initial_gas : Nat)
    (tx_data : List Nat) (storage : Storage) (write_log : WriteLog)
    (addresses : List Address) (v : Address × List String × List Nat) :
    VpsResult :=
  let addr := v.1
  let keys := v.2.1
  let vp := v.2.2
  let vp_gas_meter := VpGasMeter.new initial_gas
  let outcome :=
    env.vp_run vp tx_data addr storage write_log vp_gas_meter keys addresses
  let accept := outcome.1
  let vp_gas_meter := outcome.2
  let result :=
    { result with gas_used := result.gas_used ++ [vp_gas_meter.vp_gas],
                  changed_keys := result.changed_keys ++ keys }
  match accept with
  | .ok accepted =>
    if !accepted then
      { result with rejected_vps := insert addr result.rejected_vps }
    else
      { result with accepted_vps := insert addr result.accepted_vps }
  | .error _ =>
    { result with rejected_vps := insert addr result.rejected_vps,
                  have_error := true }

/-- Translated from `run_vps_dry` in `shell/mod.rs`: fold `run_vp` over all
verifiers without short-circuiting (sequential schedule of the rayon fold). -/
def run_vps_dry (env : Env) (verifiers : List (Address × List String × List Nat))
    (tx_data : List Nat) (storage : Storage) (write_log : WriteLog)
    (initial_gas : Nat) : VpsResult :=
  let addresses := verifiers.map (fun v => v.1)
  verifiers.foldl
    (fun result v =>
      run_vp env result initial_gas tx_data storage write_log addresses v)
    VpsResult.default

/-- Translated from `run_vps` in `shell/mod.rs`: the fallible fold over all
verifiers; each step is infallible (`Ok(run_vp ...)`), so this is the same
fold wrapped in `Ok` (sequential schedule of the rayon try-fold/try-reduce
with `merge_vp_results`). -/
def run_vps (env : Env) (verifiers : List (Address × List String × List Nat))
    (tx_data : List Nat) (storage : Storage) (write_log : WriteLog)
    (initial_gas : Nat) : Except Error VpsResult :=
  let addresses := verifiers.map (fun v => v.1)
  .ok (verifiers.foldl
    (fun result v =>
      run_vp env result initial_gas tx_data storage write_log addresses v)
    VpsResult.default)

/-- The verifier-collection loop of `check_vps` (`shell/mod.rs` lines
467-480): for each verifier in the map, fetch its validity-predicate code
from storage and charge the compiling fee on the block meter, failing on the
first storage or gas error (the fees charged so far persist in the meter). -/
def collect_verifiers_vps (storage : Storage)
    (vmap : List (Address × List String)) (gas_meter : BlockGasMeter) :
    (Except Error (List (Address × List String × List Nat))) × BlockGasMeter :=
  match vmap with
  | [] => (.ok [], gas_meter)
  | (addr, keys) :: rest =>
    match storage.validity_predicate addr with
    | .error e => (.error (.StorageError e), gas_meter)
    | .ok vp =>
      match gas_meter.add_compiling_fee vp.length with
      | .error e => (.error (.GasError e), gas_meter)
      | .ok gas_meter =>
        match collect_verifiers_vps storage rest gas_meter with
        | (.ok restv, gas_meter) => (.ok ((addr, keys, vp) :: restv), gas_meter)
        | (.error e, gas_meter) => (.error e, gas_meter)

/-- Translated from `check_vps` in `shell/mod.rs`: build the verifier map,
fetch VP code and charge compiling fees, snapshot `initial_gas`, run the VP
engine (dry-run fold or fallible fold), sort the aggregated per-VP gas list
in descending order, and when it is non-empty charge the block meter with
`add(max)` followed by `add_parallel_fee(rest)`. -/
def check_vps (env : Env) (tx : Tx) (storage : Storage)
    (gas_meter : BlockGasMeter) (write_log : WriteLog)
    (verifiers : List Address) (dry_run : Bool) :
    (Except Error VpsResult) × BlockGasMeter :=
  let vmap := get_verifiers write_log verifiers
  let tx_data := tx.data.getD []
  match collect_verifiers_vps storage vmap gas_meter with
  | (.error e, gas_meter) => (.error e, gas_meter)
  | (.ok verifiers_vps, gas_meter) =>
    let initial_gas := gas_meter.get_current_transaction_gas
    let vps_result :=
      if dry_run then
        .ok (run_vps_dry env verifiers_vps tx_data storage write_log
          initial_gas)
      else
        run_vps env verifiers_vps tx_data storage write_log initial_gas
    match vps_result with
    | .error e => (.error e, gas_meter)
    | .ok vps_result =>
      let vps_result :=
        { vps_result with gas_used := sortDesc vps_result.gas_used }
      match vps_result.gas_used with
      | [] => (.ok vps_result, gas_meter)
      | max_gas_used :: rest =>
        match gas_meter.add max_gas_used with
        | .error e => (.error (.GasError e), gas_meter)
        | .ok gas_meter =>
          match gas_meter.add_parallel_fee rest with
          | .error e => (.error (.GasError e), gas_meter)
          | .ok gas_meter => (.ok vps_result, gas_meter)

/-- Translated from `execute_tx` in `shell/mod.rs`: charge the compiling fee
for the tx code, then run the transaction code through the sandboxed runner
with an initially-empty verifier set; the runner's mutations of the write-log
and gas meter persist even when it fails. -/
def execute_tx (env : Env) (tx : Tx) (storage : Storage)
    (gas_meter : BlockGasMeter) (write_log : WriteLog) :
    (Except Error (List Address)) × WriteLog × BlockGasMeter :=
  let tx_code := tx.code
  match gas_meter.add_compiling_fee tx_code.length with
  | .error e => (.error (.GasError e), write_log, gas_meter)
  | .ok gas_meter =>
    let tx_data := tx.data.getD []
    match env.tx_run storage write_log gas_meter tx_code tx_data with
    | (.error e, write_log, gas_meter) =>
      (.error (.TxRunnerError e), write_log, gas_meter)
    | (.ok verifiers, write_log, gas_meter) =>
      (.ok verifiers, write_log, gas_meter)

/-- Translated from `run_tx` in `shell/mod.rs`: charge the base fee per byte,
decode the transaction, execute its code, run the VP engine (the source
passes `dry_run = true` here), finalize the transaction gas, and build the
`TxResult`.  State mutated through the `&mut` write-log and meter up to a
failure point persists, so both are threaded in the return value. -/
def run_tx (env : Env) (tx_bytes : List Nat) (block_gas_meter : BlockGasMeter)
    (write_log : WriteLog) (storage : Storage) :
    (Except Error TxResult) × WriteLog × BlockGasMeter :=
  match block_gas_meter.add_base_transaction_fee tx_bytes.length with
  | .error e => (.error (.GasError e), write_log, block_gas_meter)
  | .ok block_gas_meter =>
    match env.decode tx_bytes with
    | .error e => (.error (.TxDecodingError e), write_log, block_gas_meter)
    | .ok tx =>
      match execute_tx env tx storage block_gas_meter write_log with
      | (.error e, write_log, block_gas_meter) =>
        (.error e, write_log, block_gas_meter)
      | (.ok verifiers, write_log, block_gas_meter) =>
        match check_vps env tx storage block_gas_meter write_log verifiers
          true with
        | (.error e, block_gas_meter) => (.error e, write_log, block_gas_meter)
        | (.ok vps_result, block_gas_meter) =>
          match block_gas_meter.finalize_transaction with
          | .ok (gas, block_gas_meter) =>
            (.ok (TxResult.new (.ok gas) vps_result), write_log,
             block_gas_meter)
          | .error e =>
            (.ok (TxResult.new (.error (.GasError e)) vps_result), write_log,
             block_gas_meter)

/-- Translated from `struct Shell` (without the channel receiver, which is
modelled in `process_msg`): the shell owns the storage, the block gas meter
and the write-log. -/
structure Shell where
  storage : Storage
  gas_meter : BlockGasMeter
  write_log : WriteLog

/-- Translated from `Shell::init_chain`. -/
def Shell.init_chain (s : Shell) (chain_id : String) : Except Error Shell :=
  match s.storage.set_chain_id chain_id with
  | .ok storage => .ok { s with storage := storage }
  | .error e => .error (.StorageError e)

/-- Translated from `Shell::mempool_validate`: decode only, no state change. -/
def Shell.mempool_validate (env : Env) (_s : Shell) (tx_bytes : List Nat)
    (_t : MempoolTxType) : Except Error Unit :=
  match env.decode tx_bytes with
  | .ok _ => .ok ()
  | .error e => .error (.TxDecodingError e)

/-- Translated from `Shell::dry_run_tx`: run the transaction against a fresh
default gas meter and a clone of the shell's write-log; the shell itself is
returned untouched. -/
def Shell.dry_run_tx (env : Env) (s : Shell) (tx_bytes : List Nat) :
    Except Error String × Shell :=
  let gas_meter := BlockGasMeter.default
  let write_log := s.write_log
  match run_tx env tx_bytes gas_meter write_log s.storage with
  | (.ok result, _, _) => (.ok result.toString, s)
  | (.error e, _, _) => (.error e, s)

/-- Translated from `Shell::apply_tx`: run the transaction with a clone of
the shell's gas meter (so the shell's own meter is never updated) and the
shell's write-log; on success commit the tx scope when no VP rejected, else
drop it; on failure the partial tx scope is left in place. -/
def Shell.apply_tx (env : Env) (s : Shell) (tx_bytes : List Nat) :
    Except Error Nat × Shell :=
  let cloned_gas_meter := s.gas_meter
  match run_tx env tx_bytes cloned_gas_meter s.write_log s.storage with
  | (.error e, write_log, _) => (.error e, { s with write_log := write_log })
  | (.ok result, write_log, _) =>
    if result.vps.rejected_vps = ∅ then
      (.ok result.gas_used, { s with write_log := write_log.commit_tx })
    else
      (.ok result.gas_used, { s with write_log := write_log.drop_tx })

/-- Translated from `Shell::begin_block`: reset the block gas meter and enter
the block scope in storage. -/
def Shell.begin_block (s : Shell) (hash : List Nat) (height : Nat) : Shell :=
  { s with gas_meter := s.gas_meter.reset,
           storage := s.storage.begin_block hash height }

/-- Translated from `Shell::end_block`: a no-op hook. -/
def Shell.end_block (s : Shell) (_height : Nat) : Shell := s

/-- Translated from `Shell::commit`: drain the write-log block scope into
storage, persist, and return the Merkle root. -/
def Shell.commit (s : Shell) : List Nat × Shell :=
  let committed := s.write_log.commit_block s.storage
  let write_log := committed.1
  let storage := committed.2.commitDB
  (storage.merkle_root, { s with storage := storage, write_log := write_log })

/-- Translated from `Shell::last_state`: load the last committed state,
swallowing storage errors into `none`. -/
def Shell.last_state (s : Shell) : Option (List Nat × Nat) :=
  match s.storage.load_last_state with
  | .ok result => result
  | .error _ => none

/-- Translated from `enum AbciMsg` (`shell/tendermint.rs` interface as used
by `Shell::run`); the per-message reply channels are modelled by the
`sendOk` flag of `process_msg`. -/
inductive AbciMsg where
  | GetInfo
  | InitChain (chain_id : String)
  | MempoolValidate (tx : List Nat) (t : MempoolTxType)
  | BeginBlock (hash : List Nat) (height : Nat)
  | ApplyTx (tx : List Nat)
  | EndBlock (height : Nat)
  | CommitBlock
  | AbciQuery (path : String) (data : List Nat) (height : Nat) (prove : Bool)

/-- One reply-channel send, modelling `reply.send(..)`: the `sendOk` flag
says whether the caller's single-shot channel accepts the reply; a failed
send is the shell-fatal `AbciChannelSendError`. -/
def trySend (sendOk : Bool) (tag : String) : Except Error Unit :=
  if sendOk then .ok () else .error (.AbciChannelSendError tag)

/-- Translated from the body of the `Shell::run` message loop: process one
consensus message, returning the updated shell (or a shell-fatal error) and
the number of replies sent on the caller-supplied reply channel. -/
def process_msg (env : Env) (s : Shell) (msg : AbciMsg) (sendOk : Bool) :
    Except Error Shell × Nat :=
  match msg with
  | .GetInfo =>
    let _result := s.last_state
    (match trySend sendOk "GetInfo" with
     | .ok _ => (.ok s, 1)
     | .error e => (.error e, 1))
  | .InitChain chain_id =>
    (match s.init_chain chain_id with
     | .error e => (.error e, 0)
     | .ok s =>
       match trySend sendOk "InitChain" with
       | .ok _ => (.ok s, 1)
       | .error e => (.error e, 1))
  | .MempoolValidate tx t =>
    let _result := Shell.mempool_validate env s tx t
    (match trySend sendOk "MempoolValidate" with
     | .ok _ => (.ok s, 1)
     | .error e => (.error e, 1))
  | .BeginBlock hash height =>
    let s := s.begin_block hash height
    (match trySend sendOk "BeginBlock" with
     | .ok _ => (.ok s, 1)
     | .error e => (.error e, 1))
  | .ApplyTx tx =>
    let applied := Shell.apply_tx env s tx
    let s := applied.2
    (match trySend sendOk "ApplyTx" with
     | .ok _ => (.ok s, 1)
     | .error e => (.error e, 1))
  | .EndBlock height =>
    let s := s.end_block height
    (match trySend sendOk "EndBlock" with
     | .ok _ => (.ok s, 1)
     | .error e => (.error e, 1))
  | .CommitBlock =>
    let committed := s.commit
    let s := committed.2
    (match trySend sendOk "CommitBlock" with
     | .ok _ => (.ok s, 1)
     | .error e => (.error e, 1))
  | .AbciQuery path data _height _prove =>
    if path = "dry_run_tx" then
      let ran := Shell.dry_run_tx env s data
      let s := ran.2
      (match trySend sendOk "ApplyTx" with
       | .ok _ => (.ok s, 1)
       | .error e => (.error e, 1))
    else
      (.ok s, 0)

/-- A message is silent when processing it sends no reply: a `Query` whose
path is not recognized, or an `InitChain` whose storage write fails before
the send. -/
def msgSilent (s : Shell) (msg : AbciMsg) : Bool :=
  match msg with
  | .AbciQuery path _ _ _ => !(path = "dry_run_tx")
  | .InitChain chain_id => (s.storage.set_chain_id_err chain_id).isSome
  | _ => false

/-- Processing `InitChain` fails before the send when the storage refuses the
chain-id write. -/
def msgInitChainFails (s : Shell) (msg : AbciMsg) : Bool :=
  match msg with
  | .InitChain chain_id => (s.storage.set_chain_id_err chain_id).isSome
  | _ => false

/-- Whether an `Except` is an error. -/
def exceptIsError {ε α : Type} (e : Except ε α) : Bool :=
  match e with
  | .ok _ => false
  | .error _ => true

/-- The filter-map of changed keys that concerns one address: the key subset
`K_a` of the specification, rendered to strings. -/
def contribKeys (a : Address) (ks : List Key) : List String :=
  (ks.filter (fun k => decide (a ∈ k.find_addresses))).map Key.toString

/-- Expected content of a verifier-map entry after folding a batch of keys
over a previous entry state. -/
def alAfter (prev : Option (List String)) (contrib : List String) :
    Option (List String) :=
  match prev with
  | some l => some (l ++ contrib)
  | none => if contrib = [] then none else some contrib

/-- A trivial storage fixture: every validity predicate is the empty blob,
all substrate operations succeed. -/
def stTrivial : Storage :=
  { vps := fun _ => .ok [],
    chain_id := none,
    set_chain_id_err := fun _ => none,
    last_state_result := .ok none,
    root := [],
    block_hash := [],
    block_height := 0,
    committed := [] }

/-- A trivial environment fixture: decoding always yields the empty
transaction, the transaction runner makes no change and declares no
verifiers, every predicate accepts without consuming gas. -/
def envTrivial : Env :=
  { decode := fun _ => .ok { code := [], data := none },
    tx_run := fun _ wl gm _ _ => (.ok [], wl, gm),
    vp_run := fun _ _ _ _ _ m _ _ => (.ok true, m) }

/-- A fresh shell fixture over the trivial storage. -/
def shellTrivial : Shell :=
  { storage := stTrivial,
    gas_meter := BlockGasMeter.default,
    write_log := WriteLog.new }

def adaAddr : Address := .established "ada"

def alanAddr : Address := .established "alan"

def bobAddr : Address := .established "bob"

def keyAdaEth : Key :=
  { segments := [.addr adaAddr, .seg "balance", .seg "eth"] }

/-- A write-log fixture whose tx scope touched one address-bearing key. -/
def wlOneKey : WriteLog :=
  { tx_scope := [(keyAdaEth, .write [1])], block_scope := [] }

/-- A block gas meter already at the block gas limit, so that finalizing any
transaction with positive gas fails with `BlockGasExceeded`. -/
def gmAtBlockLimit : BlockGasMeter :=
  { transaction_gas := 0, block_gas := BLOCK_GAS_LIMIT }

/-- Three tx-declared verifiers, for the parallel-fee scenario. -/
def verifiersThree : List Address := [adaAddr, alanAddr, bobAddr]

/-- An environment whose predicates report per-VP gas costs 100, 40 and 30
for the three fixture addresses. -/
def envGas : Env :=
  { decode := fun _ => .ok { code := [], data := none },
    tx_run := fun _ wl gm _ _ => (.ok [], wl, gm),
    vp_run := fun _ _ addr _ _ m _ _ =>
      (.ok true,
       { m with vp_gas :=
          if addr = adaAddr then 100 else if addr = alanAddr then 40 else 30 }) }

/-- The empty transaction fixture. -/
def txEmpty : Tx := { code := [], data := none }

/-- Equality of `VpsResult`s up to multiset ordering of `changed_keys` and
`gas_used`: the sets and the error flag agree exactly, the two vectors agree
as multisets. -/
def VpsResult.equivM (x y : VpsResult) : Prop :=
  x.accepted_vps = y.accepted_vps ∧
  x.rejected_vps = y.rejected_vps ∧
  (x.changed_keys : Multiset String) = (y.changed_keys : Multiset String) ∧
  (x.gas_used : Multiset Nat) = (y.gas_used : Multiset Nat) ∧
  x.have_error = y.have_error

theorem insertDesc_perm (x : Nat) (l : List Nat) :
    (insertDesc x l).Perm (x :: l) := by
  induction l with
  | nil => simp [insertDesc]
  | cons y ys ih =>
    rw [insertDesc]
    by_cases h : y < x
    · simp [h]
    · simp only [h, if_false]
      exact (ih.cons y).trans (List.Perm.swap x y ys)

theorem insertDesc_sorted (x : Nat) (l : List Nat)
    (h : List.Sorted (fun a b => b ≤ a) l) :
    List.Sorted (fun a b => b ≤ a) (insertDesc x l) := by
  induction l with
  | nil => simp [insertDesc]
  | cons y ys ih =>
    rw [insertDesc]
    rw [List.sorted_cons] at h
    by_cases hyx : y < x
    · rw [if_pos hyx, List.sorted_cons]
      constructor
      · intro b hb
        rcases List.mem_cons.mp hb with hb | hb
        · exact hb ▸ le_of_lt hyx
        · exact le_trans (h.1 b hb) (le_of_lt hyx)
      · rw [List.sorted_cons]
        exact h
    · rw [if_neg hyx, List.sorted_cons]
      constructor
      · intro b hb
        have hb' := (insertDesc_perm x ys).mem_iff.mp hb
        rcases List.mem_cons.mp hb' with hb' | hb'
        · exact hb' ▸ le_of_not_lt hyx
        · exact h.1 b hb'
      · exact ih h.2

theorem sortDesc_perm (l : List Nat) : (sortDesc l).Perm l := by
  induction l with
  | nil => simp [sortDesc]
  | cons x xs ih =>
    rw [sortDesc]
    exact (insertDesc_perm x (sortDesc xs)).trans (ih.cons x)

theorem sortDesc_sorted (l : List Nat) :
    List.Sorted (fun a b => b ≤ a) (sortDesc l) := by
  induction l with
  | nil => simp [sortDesc]
  | cons x xs ih => exact insertDesc_sorted x (sortDesc xs) ih

theorem alGet_alPush_self (m : List (Address × List String)) (a : Address)
    (k : String) :
    alGet (alPush m a k) a = some ((alGet m a).getD [] ++ [k]) := by
  induction m with
  | nil => simp [alPush, alGet]
  | cons e rest ih =>
    obtain ⟨b, v⟩ := e
    rw [alPush]
    by_cases hba : b = a
    · subst hba
      simp [alGet]
    · rw [if_neg hba, alGet, if_neg hba, alGet, if_neg hba]
      exact ih

theorem alGet_alPush_ne (m : List (Address × List String)) (a b : Address)
    (k : String) (h : a ≠ b) : alGet (alPush m a k) b = alGet m b := by
  induction m with
  | nil => simp [alPush, alGet, h]
  | cons e rest ih =>
    obtain ⟨c, v⟩ := e
    rw [alPush]
    by_cases hca : c = a
    · subst hca
      simp [alGet, h]
    · rw [if_neg hca, alGet, alGet]
      by_cases hcb : c = b
      · simp [hcb]
      · rw [if_neg hcb, if_neg hcb]
        exact ih

theorem alGet_alInsert_self (m : List (Address × List String)) (a : Address)
    (v : List String) : alGet (alInsert m a v) a = some v := by
  induction m with
  | nil => simp [alInsert, alGet]
  | cons e rest ih =>
    obtain ⟨b, w⟩ := e
    rw [alInsert]
    by_cases hba : b = a
    · simp [hba, alGet]
    · rw [if_neg hba, alGet, if_neg hba]
      exact ih

theorem alGet_alInsert_ne (m : List (Address × List String)) (a b : Address)
    (v : List String) (h : a ≠ b) : alGet (alInsert m a v) b = alGet m b := by
  induction m with
  | nil => simp [alInsert, alGet, h]
  | cons e rest ih =>
    obtain ⟨c, w⟩ := e
    rw [alInsert]
    by_cases hca : c = a
    · subst hca
      simp [alGet, h]
    · rw [if_neg hca, alGet, alGet]
      by_cases hcb : c = b
      · simp [hcb]
      · rw [if_neg hcb, if_neg hcb]
        exact ih

theorem alGet_foldPush_not_mem (addrs : List Address)
    (m : List (Address × List String)) (k : String) (a : Address)
    (h : a ∉ addrs) :
    alGet (addrs.foldl (fun acc c => alPush acc c k) m) a = alGet m a := by
  induction addrs generalizing m with
  | nil => simp
  | cons b rest ih =>
    simp only [List.mem_cons, not_or] at h
    rw [List.foldl_cons, ih (alPush m b k) h.2, alGet_alPush_ne m b a k
      (Ne.symm h.1)]

theorem alGet_foldPush (addrs : List Address)
    (m : List (Address × List String)) (k : String) (a : Address)
    (hnd : addrs.Nodup) :
    alGet (addrs.foldl (fun acc c => alPush acc c k) m) a =
      if a ∈ addrs then some ((alGet m a).getD [] ++ [k]) else alGet m a := by
  induction addrs generalizing m with
  | nil => simp
  | cons b rest ih =>
    rw [List.nodup_cons] at hnd
    rw [List.foldl_cons]
    by_cases hab : a = b
    · subst hab
      rw [alGet_foldPush_not_mem rest (alPush m a k) k a hnd.1,
        alGet_alPush_self, if_pos (List.mem_cons_self a rest)]
    · rw [ih (alPush m b k) hnd.2, alGet_alPush_ne m b a k (Ne.symm hab)]
      simp [List.mem_cons, hab]

theorem alGet_foldInsert (B : List Address)
    (m : List (Address × List String)) (a : Address) :
    alGet (B.foldl (fun acc c => alInsert acc c []) m) a =
      if a ∈ B then some [] else alGet m a := by
  induction B generalizing m with
  | nil => simp
  | cons b rest ih =>
    rw [List.foldl_cons, ih (alInsert m b [])]
    by_cases hab : a = b
    · subst hab
      by_cases har : a ∈ rest
      · simp [har]
      · simp [har, alGet_alInsert_self]
    · rw [alGet_alInsert_ne m b a [] (Ne.symm hab)]
      simp [List.mem_cons, hab]

theorem alAfter_nil (p : Option (List String)) : alAfter p [] = p := by
  cases p <;> simp [alAfter]

theorem contribKeys_cons (a : Address) (k : Key) (ks : List Key) :
    contribKeys a (k :: ks) =
      if a ∈ k.find_addresses then k.toString :: contribKeys a ks
      else contribKeys a ks := by
  by_cases h : a ∈ k.find_addresses <;>
    simp [contribKeys, List.filter_cons, h]

theorem alGet_foldKeys (ks : List Key) (m : List (Address × List String))
    (a : Address) :
    alGet
      (ks.foldl
        (fun acc key =>
          (key.find_addresses).foldl
            (fun acc2 addr => alPush acc2 addr key.toString) acc)
        m) a = alAfter (alGet m a) (contribKeys a ks) := by
  induction ks generalizing m with
  | nil => rw [List.foldl_nil, contribKeys, List.filter_nil, List.map_nil,
      alAfter_nil]
  | cons k rest ih =>
    rw [List.foldl_cons, ih, contribKeys_cons,
      alGet_foldPush k.find_addresses m k.toString a (List.nodup_dedup _)]
    by_cases h : a ∈ k.find_addresses
    · rw [if_pos h, if_pos h]
      cases hm : alGet m a with
      | some l => simp [alAfter]
      | none => simp [alAfter]
    · rw [if_neg h, if_neg h]

theorem alGet_get_verifiers (wl : WriteLog) (B : List Address) (a : Address) :
    alGet (get_verifiers wl B) a =
      alAfter (if a ∈ B then some [] else none)
        (contribKeys a wl.get_changed_keys) := by
  rw [get_verifiers]
  rw [alGet_foldKeys, alGet_foldInsert]
  simp [alGet]

theorem txResult_new_valid (gas : Except Error Nat) (vps : VpsResult) :
    (TxResult.new gas vps).valid = decide (vps.rejected_vps = ∅) := rfl

/-- C1 (amended): for every transaction result constructed by `TxResult::new`
(hence by `run_tx`), the `valid` flag satisfies
`valid ⇔ vps.rejected = ∅` alone; `gas_used` is not consulted, so a
transaction whose gas finalization failed (`gas_used = 0`) is still marked
valid when no VP rejected it. -/
theorem txResult_valid_iff_no_rejected_vps :
    ∀ (gas : Except Error Nat) (vps : VpsResult),
      (TxResult.new gas vps).valid = true ↔ vps.rejected_vps = ∅ := by
  intro gas vps
  rw [txResult_new_valid]
  exact decide_eq_true_iff

/-- C1 counterexample: a transaction run by `run_tx` against a block meter
already at the block gas limit gets `gas_used = 0` from the failed
finalization, rejects no VP, and is nevertheless marked `valid = true` —
falsifying `valid ⇔ (vps.rejected = ∅ ∧ gas_used > 0)` at this input. -/
theorem txResult_valid_despite_zero_gas :
    (run_tx envTrivial [0] gmAtBlockLimit WriteLog.new stTrivial).1 =
      .ok (TxResult.new (.error (.GasError .BlockGasExceeded))
        VpsResult.default) ∧
    (TxResult.new (.error (.GasError .BlockGasExceeded))
      VpsResult.default).valid = true ∧
    (TxResult.new (.error (.GasError .BlockGasExceeded))
      VpsResult.default).gas_used = 0 ∧
    ¬((TxResult.new (.error (.GasError .BlockGasExceeded))
        VpsResult.default).valid = true ↔
      ((TxResult.new (.error (.GasError .BlockGasExceeded))
        VpsResult.default).vps.rejected_vps = ∅ ∧
       0 < (TxResult.new (.error (.GasError .BlockGasExceeded))
        VpsResult.default).gas_used)) := by
  refine ⟨rfl, rfl, rfl, ?_⟩
  decide

/-- C2 (code bug): `apply_tx` passes a clone of the shell's block gas meter
to `run_tx`, so the gas finalized for a transaction is never added to the
shell's block-level meter — for every environment, shell and transaction the
shell's meter is unchanged by `apply_tx`; concretely, a 1-byte transaction on
a fresh shell reports `gas_used = 2 > 0` yet leaves the shell's block total
at 0, so per-tx gas does not accrue and the block gas limit is not enforced
over the sum. -/
theorem apply_tx_does_not_accrue_block_gas :
    (∀ (env : Env) (s : Shell) (tx_bytes : List Nat),
      (Shell.apply_tx env s tx_bytes).2.gas_meter = s.gas_meter) ∧
    (Shell.apply_tx envTrivial shellTrivial [7]).1 = .ok 2 ∧
    0 < 2 ∧
    (Shell.apply_tx envTrivial shellTrivial [7]).2.gas_meter.block_gas = 0 := by
  refine ⟨?_, rfl, by decide, rfl⟩
  intro env s tx_bytes
  simp only [Shell.apply_tx]
  rcases hrt : run_tx env tx_bytes s.gas_meter s.write_log s.storage with
    ⟨res, wl, gm⟩
  cases res with
  | error e => rfl
  | ok r =>
    by_cases h : r.vps.rejected_vps = ∅ <;> simp [h]

/-- C3: a `dry_run_tx` query runs the transaction against a throwaway clone
of the write-log and a fresh default gas meter, so the shell's persistent
write-log, its block gas meter and its storage are unchanged before vs
after the dry run, for every environment, shell and transaction bytes. -/
theorem dry_run_tx_leaves_shell_unchanged :
    ∀ (env : Env) (s : Shell) (tx_bytes : List Nat),
      (Shell.dry_run_tx env s tx_bytes).2.write_log = s.write_log ∧
      (Shell.dry_run_tx env s tx_bytes).2.gas_meter = s.gas_meter ∧
      (Shell.dry_run_tx env s tx_bytes).2.storage = s.storage := by
  intro env s tx_bytes
  have h : (Shell.dry_run_tx env s tx_bytes).2 = s := by
    simp only [Shell.dry_run_tx]
    split <;> rfl
  rw [h]
  exact ⟨rfl, rfl, rfl⟩

/-- C7: `merge_vp_results` computes the accepted and rejected sets as unions,
`changed_keys` and `gas_used` as concatenations and `have_error` as the
disjunction; it is associative (exact equality), and commutative up to
multiset ordering of `changed_keys` and `gas_used`. -/
theorem merge_vp_results_assoc_comm :
    ∀ (a b c : VpsResult),
      (merge_vp_results a b).accepted_vps = a.accepted_vps ∪ b.accepted_vps ∧
      (merge_vp_results a b).rejected_vps = a.rejected_vps ∪ b.rejected_vps ∧
      (merge_vp_results a b).changed_keys = a.changed_keys ++ b.changed_keys ∧
      (merge_vp_results a b).gas_used = a.gas_used ++ b.gas_used ∧
      (merge_vp_results a b).have_error = (a.have_error || b.have_error) ∧
      merge_vp_results (merge_vp_results a b) c =
        merge_vp_results a (merge_vp_results b c) ∧
      (merge_vp_results a b).equivM (merge_vp_results b a) := by
  intro a b c
  refine ⟨rfl, rfl, rfl, rfl, rfl, ?_, ?_⟩
  · simp [merge_vp_results, VpsResult.new, Finset.union_assoc,
      List.append_assoc, Bool.or_assoc]
  · refine ⟨Finset.union_comm _ _, Finset.union_comm _ _, ?_, ?_,
      Bool.or_comm _ _⟩
    · exact Multiset.coe_eq_coe.mpr List.perm_append_comm
    · exact Multiset.coe_eq_coe.mpr List.perm_append_comm


theorem contribKeys_ne_nil_iff (a : Address) (ks : List Key) :
    contribKeys a ks ≠ [] ↔ ∃ k ∈ ks, a ∈ k.find_addresses := by
  induction ks with
  | nil => simp [contribKeys]
  | cons k rest ih =>
    rw [contribKeys_cons]
    by_cases h : a ∈ k.find_addresses
    · simp [h]
    · rw [if_neg h, ih]
      simp [h]

/-- C5: the verifier map computed by `get_verifiers` before VP dispatch has
exactly the domain `B ∪ { a | k ∈ changed keys, a ∈ find_addresses(k) }` —
so every address occurring in any mutated key is a verifier — and the key
list attached to each verifier `a` is exactly the subset of changed keys
whose addresses include `a`, rendered to strings (possibly empty for members
of `B` that contributed no keys). -/
theorem get_verifiers_domain_and_key_subsets :
    ∀ (wl : WriteLog) (B : List Address) (a : Address),
      ((alGet (get_verifiers wl B) a).isSome ↔
        (a ∈ B ∨ ∃ k ∈ wl.get_changed_keys, a ∈ k.find_addresses)) ∧
      (∀ l, alGet (get_verifiers wl B) a = some l →
        l = (wl.get_changed_keys.filter
          (fun k => decide (a ∈ k.find_addresses))).map Key.toString) := by
  intro wl B a
  have hg := alGet_get_verifiers wl B a
  constructor
  · rw [hg]
    by_cases hB : a ∈ B
    · simp [hB, alAfter]
    · rw [if_neg hB]
      rcases eq_or_ne (contribKeys a wl.get_changed_keys) [] with hc | hc
      · rw [hc, alAfter_nil]
        constructor
        · intro h
          simp at h
        · intro h
          rcases h with h | h
          · exact absurd h hB
          · exact absurd hc ((contribKeys_ne_nil_iff a _).mpr h)
      · simp only [alAfter, if_neg hc, Option.isSome_some, true_iff]
        exact Or.inr ((contribKeys_ne_nil_iff a wl.get_changed_keys).mp hc)
  · intro l hl
    rw [hg] at hl
    by_cases hB : a ∈ B
    · rw [if_pos hB] at hl
      simp only [alAfter, List.nil_append, Option.some.injEq] at hl
      exact hl.symm
    · rw [if_neg hB] at hl
      simp only [alAfter] at hl
      rcases eq_or_ne (contribKeys a wl.get_changed_keys) [] with hc | hc
      · rw [if_pos hc] at hl
        exact absurd hl (by simp)
      · rw [if_neg hc] at hl
        exact (Option.some.injEq _ _ ▸ hl :
          contribKeys a wl.get_changed_keys = l).symm

/-- Witness for C5: on a write-log that mutated the single key
`@ada/balance/eth` with no tx-declared verifiers, the address `ada` is in the
verifier map's domain, and its attached key list is exactly the filtered
changed-key subset. -/
theorem get_verifiers_domain_and_key_subsets_witness :
    (alGet (get_verifiers wlOneKey []) adaAddr).isSome ∧
    [keyAdaEth.toString] =
      (wlOneKey.get_changed_keys.filter
        (fun k => decide (adaAddr ∈ k.find_addresses))).map Key.toString := by
  constructor
  · exact (get_verifiers_domain_and_key_subsets wlOneKey [] adaAddr).1.mpr
      (Or.inr ⟨keyAdaEth, by decide, by decide⟩)
  · exact (get_verifiers_domain_and_key_subsets wlOneKey [] adaAddr).2
      [keyAdaEth.toString] rfl

/-- C8: for every predicate evaluation by `run_vp`, the outcome is mapped
into the aggregate as: `accept = true` adds the address to `accepted`,
`accept = false` adds it to `rejected`, a host error adds it to `rejected`
and sets `have_error`; the predicate contributes exactly one element to
`gas_used` (its meter's `vp_gas`), its keys are appended to `changed_keys`,
and when the address was not yet classified the accepted and rejected sets
remain disjoint. -/
theorem run_vp_outcome_mapping :
    ∀ (env : Env) (result : VpsResult) (initial_gas : Nat) (tx_data : List Nat)
      (storage : Storage) (write_log : WriteLog) (addresses : List Address)
      (addr : Address) (keys : List String) (vp : List Nat)
      (out : VpsResult) (accept : Except Unit Bool) (meter : VpGasMeter),
      Disjoint result.accepted_vps result.rejected_vps →
      addr ∉ result.accepted_vps →
      addr ∉ result.rejected_vps →
      env.vp_run vp tx_data addr storage write_log (VpGasMeter.new initial_gas)
        keys addresses = (accept, meter) →
      run_vp env result initial_gas tx_data storage write_log addresses
        (addr, keys, vp) = out →
      (out.gas_used = result.gas_used ++ [meter.vp_gas] ∧
       out.changed_keys = result.changed_keys ++ keys ∧
       Disjoint out.accepted_vps out.rejected_vps ∧
       (match accept with
        | .ok true => out.accepted_vps = insert addr result.accepted_vps ∧
            out.rejected_vps = result.rejected_vps ∧
            out.have_error = result.have_error
        | .ok false => out.rejected_vps = insert addr result.rejected_vps ∧
            out.accepted_vps = result.accepted_vps ∧
            out.have_error = result.have_error
        | .error _ => out.rejected_vps = insert addr result.rejected_vps ∧
            out.accepted_vps = result.accepted_vps ∧
            out.have_error = true)) := by
  intro env result initial_gas tx_data storage write_log addresses addr keys vp
    out accept meter hdisj hacc hrej hrun hout
  subst hout
  simp only [run_vp, hrun]
  cases accept with
  | ok b =>
    cases b with
    | true =>
      refine ⟨rfl, rfl, ?_, rfl, rfl, rfl⟩
      exact Finset.disjoint_insert_left.mpr ⟨hrej, hdisj⟩
    | false =>
      refine ⟨rfl, rfl, ?_, rfl, rfl, rfl⟩
      exact Finset.disjoint_insert_right.mpr ⟨hacc, hdisj⟩
  | error e =>
    refine ⟨rfl, rfl, ?_, rfl, rfl, rfl⟩
    exact Finset.disjoint_insert_right.mpr ⟨hacc, hdisj⟩

/-- Witness for C8: running the trivial always-accepting predicate for `ada`
over the empty aggregate adds `ada` to `accepted`, contributes one gas entry
and keeps the sets disjoint. -/
theorem run_vp_outcome_mapping_witness :
    (Disjoint VpsResult.default.accepted_vps VpsResult.default.rejected_vps ∧
     adaAddr ∉ VpsResult.default.accepted_vps ∧
     adaAddr ∉ VpsResult.default.rejected_vps) ∧
    ((run_vp envTrivial VpsResult.default 0 [] stTrivial WriteLog.new []
        (adaAddr, [], [])).gas_used =
      VpsResult.default.gas_used ++ [(VpGasMeter.new 0).vp_gas] ∧
     (run_vp envTrivial VpsResult.default 0 [] stTrivial WriteLog.new []
        (adaAddr, [], [])).changed_keys =
      VpsResult.default.changed_keys ++ [] ∧
     Disjoint
      (run_vp envTrivial VpsResult.default 0 [] stTrivial WriteLog.new []
        (adaAddr, [], [])).accepted_vps
      (run_vp envTrivial VpsResult.default 0 [] stTrivial WriteLog.new []
        (adaAddr, [], [])).rejected_vps ∧
     ((run_vp envTrivial VpsResult.default 0 [] stTrivial WriteLog.new []
        (adaAddr, [], [])).accepted_vps =
        insert adaAddr VpsResult.default.accepted_vps ∧
      (run_vp envTrivial VpsResult.default 0 [] stTrivial WriteLog.new []
        (adaAddr, [], [])).rejected_vps = VpsResult.default.rejected_vps ∧
      (run_vp envTrivial VpsResult.default 0 [] stTrivial WriteLog.new []
        (adaAddr, [], [])).have_error = VpsResult.default.have_error)) := by
  refine ⟨⟨by simp [VpsResult.default], by simp [VpsResult.default],
    by simp [VpsResult.default]⟩, ?_⟩
  exact run_vp_outcome_mapping envTrivial VpsResult.default 0 [] stTrivial
    WriteLog.new [] adaAddr [] [] _ (.ok true) (VpGasMeter.new 0)
    (by simp [VpsResult.default]) (by simp [VpsResult.default])
    (by simp [VpsResult.default]) rfl rfl

/-- C4: whenever `run_tx` runs to a `TxResult`, `apply_tx` commits the
write-log's tx scope exactly when the result's rejected-VP set is empty, and
otherwise drops it — this single commit-vs-drop decision is the only action
applied to the write-log after VP evaluation, and the finalized gas is
returned to the caller. -/
theorem apply_tx_commit_vs_drop :
    ∀ (env : Env) (s : Shell) (tx_bytes : List Nat) (r : TxResult)
      (wl : WriteLog) (gm : BlockGasMeter),
      run_tx env tx_bytes s.gas_meter s.write_log s.storage = (.ok r, wl, gm) →
      Shell.apply_tx env s tx_bytes =
        (.ok r.gas_used,
         { s with write_log :=
            if r.vps.rejected_vps = ∅ then wl.commit_tx else wl.drop_tx }) := by
  intro env s tx_bytes r wl gm h
  simp only [Shell.apply_tx, h]
  by_cases hr : r.vps.rejected_vps = ∅ <;> simp [hr]

/-- Witness for C4: the empty transaction on a fresh shell runs to a
`TxResult` with no rejections, and `apply_tx` commits the tx scope. -/
theorem apply_tx_commit_vs_drop_witness :
    run_tx envTrivial [] BlockGasMeter.default WriteLog.new stTrivial =
      (.ok (TxResult.new (.ok 0) VpsResult.default), WriteLog.new,
       BlockGasMeter.default) ∧
    Shell.apply_tx envTrivial shellTrivial [] =
      (.ok (TxResult.new (.ok 0) VpsResult.default).gas_used,
       { shellTrivial with write_log :=
          if (TxResult.new (.ok 0) VpsResult.default).vps.rejected_vps = ∅
          then WriteLog.new.commit_tx else WriteLog.new.drop_tx }) := by
  refine ⟨rfl, ?_⟩
  exact apply_tx_commit_vs_drop envTrivial shellTrivial []
    (TxResult.new (.ok 0) VpsResult.default) WriteLog.new BlockGasMeter.default
    rfl

/-- C9 (amended): processing a consensus message sends at most one reply on
the caller-supplied channel: exactly one, unless the message is a `Query`
whose path is not `dry_run_tx` (which sends none) or an `InitChain` whose
chain-id write fails before the send; processing returns a shell-fatal error
exactly when that pre-send `InitChain` failure occurs or when a reply is sent
and the send fails. -/
theorem process_msg_reply_discipline :
    ∀ (env : Env) (s : Shell) (msg : AbciMsg) (sendOk : Bool),
      (process_msg env s msg sendOk).2 = (if msgSilent s msg then 0 else 1) ∧
      exceptIsError (process_msg env s msg sendOk).1 =
        (msgInitChainFails s msg || (!msgSilent s msg && !sendOk)) := by
  intro env s msg sendOk
  cases msg with
  | GetInfo =>
    cases sendOk <;>
      simp [process_msg, msgSilent, msgInitChainFails, trySend, exceptIsError]
  | InitChain chain_id =>
    cases hc : s.storage.set_chain_id_err chain_id with
    | some e =>
      simp [process_msg, msgSilent, msgInitChainFails, trySend, exceptIsError,
        Shell.init_chain, Storage.set_chain_id, hc]
    | none =>
      cases sendOk <;>
        simp [process_msg, msgSilent, msgInitChainFails, trySend,
          exceptIsError, Shell.init_chain, Storage.set_chain_id, hc]
  | MempoolValidate tx t =>
    cases sendOk <;>
      simp [process_msg, msgSilent, msgInitChainFails, trySend, exceptIsError]
  | BeginBlock hash height =>
    cases sendOk <;>
      simp [process_msg, msgSilent, msgInitChainFails, trySend, exceptIsError]
  | ApplyTx tx =>
    cases sendOk <;>
      simp [process_msg, msgSilent, msgInitChainFails, trySend, exceptIsError]
  | EndBlock height =>
    cases sendOk <;>
      simp [process_msg, msgSilent, msgInitChainFails, trySend, exceptIsError]
  | CommitBlock =>
    cases sendOk <;>
      simp [process_msg, msgSilent, msgInitChainFails, trySend, exceptIsError]
  | AbciQuery path data height prove =>
    by_cases hp : path = "dry_run_tx"
    · cases sendOk <;>
        simp [process_msg, msgSilent, msgInitChainFails, trySend,
          exceptIsError, hp]
    · simp [process_msg, msgSilent, msgInitChainFails, trySend, exceptIsError,
        hp]

/-- C9 counterexample: a `Query` whose path is `"store"` (not `dry_run_tx`)
is processed without sending any reply, falsifying the claim that every
consensus message sends exactly one reply. -/
theorem process_msg_query_without_reply :
    (process_msg envTrivial shellTrivial
      (.AbciQuery "store" [] 0 false) true).2 = 0 ∧
    ¬((process_msg envTrivial shellTrivial
      (.AbciQuery "store" [] 0 false) true).2 = 1) := by
  refine ⟨rfl, by decide⟩

/-- C6: when the aggregated per-VP gas list is non-empty, `check_vps` sorts
it in descending order (the resulting list is sorted and a permutation of the
aggregate) and charges the block meter with `add(maximum)` followed by
`add_parallel_fee(remaining)`, returning the sorted result and the meter
after both charges. -/
theorem check_vps_parallel_gas_policy :
    ∀ (env : Env) (tx : Tx) (storage : Storage)
      (gm gm2 gmA gmB : BlockGasMeter) (wl : WriteLog) (B : List Address)
      (vvps : List (Address × List String × List Nat)) (m : Nat)
      (rest : List Nat),
      collect_verifiers_vps storage (get_verifiers wl B) gm = (.ok vvps, gm2) →
      sortDesc (run_vps_dry env vvps (tx.data.getD []) storage wl
        gm2.get_current_transaction_gas).gas_used = m :: rest →
      gm2.add m = .ok gmA →
      gmA.add_parallel_fee rest = .ok gmB →
      (check_vps env tx storage gm wl B true =
        (.ok { run_vps_dry env vvps (tx.data.getD []) storage wl
            gm2.get_current_transaction_gas with gas_used := m :: rest },
         gmB) ∧
       List.Sorted (fun a b => b ≤ a) (m :: rest) ∧
       (m :: rest).Perm (run_vps_dry env vvps (tx.data.getD []) storage wl
         gm2.get_current_transaction_gas).gas_used) := by
  intro env tx storage gm gm2 gmA gmB wl B vvps m rest h1 h2 h3 h4
  refine ⟨?_, ?_, ?_⟩
  · simp only [check_vps, h1, if_true, h2, h3, h4]
  · rw [← h2]
    exact sortDesc_sorted _
  · rw [← h2]
    exact sortDesc_perm _

/-- Witness for C6: three verifiers with per-VP costs 100, 40 and 30; the
aggregate is sorted to `[100, 40, 30]` and the block meter is charged
`add(100)` and `add_parallel_fee([40, 30])`, ending at transaction gas
`100 + ceil(70 / 10) = 107`. -/
theorem check_vps_parallel_gas_policy_witness :
    (collect_verifiers_vps stTrivial
        (get_verifiers WriteLog.new verifiersThree) BlockGasMeter.default =
      (.ok [(adaAddr, [], []), (alanAddr, [], []), (bobAddr, [], [])],
       BlockGasMeter.default) ∧
     sortDesc (run_vps_dry envGas
        [(adaAddr, [], []), (alanAddr, [], []), (bobAddr, [], [])]
        (txEmpty.data.getD []) stTrivial WriteLog.new
        BlockGasMeter.default.get_current_transaction_gas).gas_used =
       100 :: [40, 30] ∧
     BlockGasMeter.default.add 100 = .ok (BlockGasMeter.mk 100 0) ∧
     (BlockGasMeter.mk 100 0).add_parallel_fee [40, 30] =
       .ok (BlockGasMeter.mk 107 0)) ∧
    (check_vps envGas txEmpty stTrivial BlockGasMeter.default WriteLog.new
        verifiersThree true =
      (.ok { run_vps_dry envGas
          [(adaAddr, [], []), (alanAddr, [], []), (bobAddr, [], [])]
          (txEmpty.data.getD []) stTrivial WriteLog.new
          BlockGasMeter.default.get_current_transaction_gas with
          gas_used := 100 :: [40, 30] }, BlockGasMeter.mk 107 0) ∧
     List.Sorted (fun a b => b ≤ a) (100 :: [40, 30]) ∧
     (100 :: [40, 30]).Perm (run_vps_dry envGas
        [(adaAddr, [], []), (alanAddr, [], []), (bobAddr, [], [])]
        (txEmpty.data.getD []) stTrivial WriteLog.new
        BlockGasMeter.default.get_current_transaction_gas).gas_used) := by
  refine ⟨⟨rfl, rfl, rfl, rfl⟩, ?_⟩
  exact check_vps_parallel_gas_policy envGas txEmpty stTrivial
    BlockGasMeter.default BlockGasMeter.default (BlockGasMeter.mk 100 0)
    (BlockGasMeter.mk 107 0) WriteLog.new verifiersThree
    [(adaAddr, [], []), (alanAddr, [], []), (bobAddr, [], [])] 100 [40, 30]
    rfl rfl rfl rfl

theorem foldl_keys_no_addresses (ks : List Key)
    (acc : List (Address × List String))
    (h : ∀ k ∈ ks, k.find_addresses = []) :
    ks.foldl
      (fun acc2 key =>
        (key.find_addresses).foldl
          (fun acc3 addr => alPush acc3 addr key.toString) acc2) acc = acc := by
  induction ks generalizing acc with
  | nil => rfl
  | cons k rest ih =>
    rw [List.foldl_cons, h k (List.mem_cons_self k rest), List.foldl_nil]
    exact ih acc (fun k hk => h k (List.mem_cons_of_mem _ hk))

theorem get_verifiers_empty (wl : WriteLog)
    (h : ∀ k ∈ wl.get_changed_keys, k.find_addresses = []) :
    get_verifiers wl [] = [] := by
  rw [get_verifiers]
  simp only [List.foldl_nil]
  exact foldl_keys_no_addresses _ _ h

/-- C10: when a transaction declares no verifiers and mutates only keys
without addresses, the verifier map is empty, `check_vps` returns the default
empty `VpsResult` without error and without charging any VP-phase gas (the
meter is returned unchanged), the resulting `TxResult` has `valid = true`
whatever the finalized gas, `run_tx` succeeds, and `apply_tx` commits the
transaction's write-log changes with zero validity predicates having run. -/
theorem check_vps_empty_verifier_set :
    ∀ (env : Env) (s : Shell) (tx_bytes : List Nat) (gm1 : BlockGasMeter)
      (tx : Tx) (wl2 : WriteLog) (gm2 : BlockGasMeter),
      s.gas_meter.add_base_transaction_fee tx_bytes.length = .ok gm1 →
      env.decode tx_bytes = .ok tx →
      execute_tx env tx s.storage gm1 s.write_log = (.ok [], wl2, gm2) →
      (∀ k ∈ wl2.get_changed_keys, k.find_addresses = []) →
      (get_verifiers wl2 [] = [] ∧
       check_vps env tx s.storage gm2 wl2 [] true =
         (.ok VpsResult.default, gm2) ∧
       (∀ gr : Except Error Nat,
         (TxResult.new gr VpsResult.default).valid = true) ∧
       (match gm2.finalize_transaction with
        | .ok (g, gm3) =>
          run_tx env tx_bytes s.gas_meter s.write_log s.storage =
            (.ok (TxResult.new (.ok g) VpsResult.default), wl2, gm3)
        | .error e =>
          run_tx env tx_bytes s.gas_meter s.write_log s.storage =
            (.ok (TxResult.new (.error (.GasError e)) VpsResult.default), wl2,
             gm2)) ∧
       (Shell.apply_tx env s tx_bytes).2.write_log = wl2.commit_tx) := by
  intro env s tx_bytes gm1 tx wl2 gm2 h1 h2 h3 h4
  have hgv : get_verifiers wl2 [] = [] := get_verifiers_empty wl2 h4
  have hcv : check_vps env tx s.storage gm2 wl2 [] true =
      (.ok VpsResult.default, gm2) := by
    simp only [check_vps, hgv]
    rfl
  have hrt : match gm2.finalize_transaction with
      | .ok (g, gm3) =>
        run_tx env tx_bytes s.gas_meter s.write_log s.storage =
          (.ok (TxResult.new (.ok g) VpsResult.default), wl2, gm3)
      | .error e =>
        run_tx env tx_bytes s.gas_meter s.write_log s.storage =
          (.ok (TxResult.new (.error (.GasError e)) VpsResult.default), wl2,
           gm2) := by
    cases hf : gm2.finalize_transaction with
    | ok p =>
      obtain ⟨g, gm3⟩ := p
      simp only [run_tx, h1, h2, h3, hcv, hf]
    | error e =>
      simp only [run_tx, h1, h2, h3, hcv, hf]
  refine ⟨hgv, hcv, ?_, hrt, ?_⟩
  · intro gr
    rw [txResult_new_valid]
    simp [VpsResult.default]
  · cases hf : gm2.finalize_transaction with
    | ok p =>
      obtain ⟨g, gm3⟩ := p
      rw [hf] at hrt
      simp only [Shell.apply_tx, hrt]
      simp [TxResult.new, VpsResult.default]
    | error e =>
      rw [hf] at hrt
      simp only [Shell.apply_tx, hrt]
      simp [TxResult.new, VpsResult.default]

/-- Witness for C10: the empty transaction on a fresh shell declares no
verifiers and changes no keys; `check_vps` returns the empty default result
with the meter unchanged and `apply_tx` commits the (empty) tx scope. -/
theorem check_vps_empty_verifier_set_witness :
    (shellTrivial.gas_meter.add_base_transaction_fee
        ([] : List Nat).length = .ok BlockGasMeter.default ∧
     envTrivial.decode [] = .ok txEmpty ∧
     execute_tx envTrivial txEmpty shellTrivial.storage BlockGasMeter.default
       shellTrivial.write_log = (.ok [], WriteLog.new, BlockGasMeter.default) ∧
     (∀ k ∈ WriteLog.new.get_changed_keys, k.find_addresses = [])) ∧
    (get_verifiers WriteLog.new [] = [] ∧
     check_vps envTrivial txEmpty shellTrivial.storage BlockGasMeter.default
       WriteLog.new [] true = (.ok VpsResult.default, BlockGasMeter.default) ∧
     (∀ gr : Except Error Nat,
       (TxResult.new gr VpsResult.default).valid = true) ∧
     (match BlockGasMeter.default.finalize_transaction with
      | .ok (g, gm3) =>
        run_tx envTrivial [] shellTrivial.gas_meter shellTrivial.write_log
          shellTrivial.storage =
          (.ok (TxResult.new (.ok g) VpsResult.default), WriteLog.new, gm3)
      | .error e =>
        run_tx envTrivial [] shellTrivial.gas_meter shellTrivial.write_log
          shellTrivial.storage =
          (.ok (TxResult.new (.error (.GasError e)) VpsResult.default),
           WriteLog.new, BlockGasMeter.default)) ∧
     (Shell.apply_tx envTrivial shellTrivial []).2.write_log =
       WriteLog.new.commit_tx) := by
  refine ⟨⟨rfl, rfl, rfl, ?_⟩, ?_⟩
  · intro k hk
    simp [WriteLog.new, WriteLog.get_changed_keys] at hk
  · exact check_vps_empty_verifier_set envTrivial shellTrivial []
      BlockGasMeter.default txEmpty WriteLog.new BlockGasMeter.default rfl rfl
      rfl
      (by
        intro k hk
        simp [WriteLog.new, WriteLog.get_changed_keys] at hk)
